import Mathlib

/-!
Verification development for the CumulusCI CLI core: the configuration
deep-merge utility, the signal-handling/process-lifecycle controller, the
plugin loader, and the final-release version predicate.

Sources embedded from the repository:
  * `cumulusci/plugins/plugin_loader.py` (`load_plugins`)
  * `cumulusci/cli/utils.py` (`is_final_release`)

The bodies of `cumulusci.cli.cci` (`main`, `_signal_handler`) and
`cumulusci.core.utils.deep_merge_plugins` are not among the provided
sources (only their test suites are), so those definitions are modelled
from the specification, as marked in their doc comments.
-/

/-! ## Configuration trees -/

/-- A configuration tree: a scalar value or a mapping from string keys to
subtrees (Python dicts of strings / nested dicts). -/
inductive Value where
  | scalar (s : String)
  | dict (entries : List (String × Value))

/-- Whether a value is a mapping (Python `isinstance(v, dict)`). -/
def Value.isDict : Value → Bool
  | Value.dict _ => true
  | _ => false

/-- The entries of a mapping value (empty for scalars). -/
def Value.entries : Value → List (String × Value)
  | Value.scalar _ => []
  | Value.dict es => es

/-- Dictionary lookup (`d[k]` / `k in d`), first matching key wins. -/
def lookupV (k : String) : List (String × Value) → Option Value
  | [] => none
  | (k2, v) :: rest => if k2 = k then some v else lookupV k rest

/-- Entries of `l` whose keys do not occur in `r` (the local-only keys). -/
def localOnly (r l : List (String × Value)) : List (String × Value) :=
  l.filter (fun e => (lookupV e.1 r).isNone)

mutual

/-- Modelled from the spec: `cumulusci.core.utils.deep_merge_plugins`
(only its tests are among the sources).  Given `remote` and `local`:
if either input is not a mapping, return `remote` unchanged; if both are
mappings, for every key of `remote` take `remote`'s value, except that a
key present in both whose values are both mappings is merged recursively;
keys present only in `local` are appended with `local`'s value. -/
def deep_merge_plugins : Value → Value → Value
  | Value.dict r, Value.dict l =>
      Value.dict (mergeEntries r l ++ localOnly r l)
  | r, _ => r
termination_by r _ => sizeOf r
decreasing_by all_goals (simp_wf <;> omega)

/-- The per-key pass over the remote entries of `deep_merge_plugins`. -/
def mergeEntries : List (String × Value) → List (String × Value) →
    List (String × Value)
  | [], _ => []
  | (k, vr) :: rest, l =>
      (k, match lookupV k l with
          | some vl =>
              if vr.isDict && vl.isDict then deep_merge_plugins vr vl else vr
          | none => vr) :: mergeEntries rest l
termination_by es _ => sizeOf es
decreasing_by all_goals (simp_wf <;> omega)

end

/-- The value the merge assigns to a remote entry `vr`, given the local
value (if any) at the same key.  Used to state the per-key
characterization of the merge. -/
def mergeValue (vr : Value) (o : Option Value) : Value :=
  match o with
  | some vl => if vr.isDict && vl.isDict then deep_merge_plugins vr vl else vr
  | none => vr

/-! ## Heap layout of merge results (deep-copy property)

`deep_merge_plugins` builds its result by deep-copying (per the spec, the
result shares no mutable structure with either input).  We model the
mutable runtime structure as a heap of addressed nodes: `flattenV` lays a
tree out in the heap using fresh addresses starting at a given counter,
exactly as a deep copy allocates only fresh cells. -/

/-- A heap cell: a scalar, or a dict node holding addresses of its
children. -/
inductive Node where
  | scalar (s : String)
  | dict (entries : List (String × Nat))

/-- A heap maps addresses to cells. -/
def Heap : Type := Nat → Option Node

/-- Writing cell `x` at address `a` (mutation of one node). -/
def heapUpdate (h : Heap) (a : Nat) (x : Node) : Heap :=
  fun c => if c = a then some x else h c

/-- Result of laying out a value: its cells, root address, next fresh
address. -/
structure FlatRes where
  cells : List (Nat × Node)
  root : Nat
  next : Nat

/-- Result of laying out a list of entries. -/
structure FlatEntriesRes where
  cells : List (Nat × Node)
  addrEntries : List (String × Nat)
  next : Nat

mutual

/-- Lay a value out in the heap at fresh addresses starting from `n`
(the allocation performed by a deep copy). -/
def flattenV : Value → Nat → FlatRes
  | Value.scalar s, n => ⟨[(n, Node.scalar s)], n, n + 1⟩
  | Value.dict es, n =>
      let r := flattenEntries es n
      ⟨r.cells ++ [(r.next, Node.dict r.addrEntries)], r.next, r.next + 1⟩
termination_by v _ => sizeOf v
decreasing_by all_goals (simp_wf <;> omega)

/-- Lay a list of entries out in the heap, left to right. -/
def flattenEntries : List (String × Value) → Nat → FlatEntriesRes
  | [], n => ⟨[], [], n⟩
  | (k, v) :: rest, n =>
      let r1 := flattenV v n
      let r2 := flattenEntries rest r1.next
      ⟨r1.cells ++ r2.cells, (k, r1.root) :: r2.addrEntries, r2.next⟩
termination_by es _ => sizeOf es
decreasing_by all_goals (simp_wf <;> omega)

end

/-! ## Process lifecycle controller (signal handler) -/

/-- The name of a recognized termination signal (interrupt = 2,
terminate = 15). -/
def signalName (s : Nat) : String :=
  if s = 2 then "SIGINT" else if s = 15 then "SIGTERM" else "UNKNOWN"

/-- The process-wide state the handler reads: the re-entrancy guard, the
registered exit stack (cleanup action ids in registration order), the
platform capability probe for process groups, and the outcome the
group-termination call would have. -/
structure HandlerEnv where
  active : Bool
  exitStack : List Nat
  pgSupported : Bool
  killpgOutcome : Except String Unit

/-- The observable effects of one handler invocation: console output,
number of group-termination calls, whether default signal handling was
restored, the cleanup actions run (in order), and the exit code passed to
process exit (if any). -/
structure HandlerResult where
  output : List String
  killpgCalls : Nat
  defaultRestored : Bool
  cleanupRan : List Nat
  exitCode : Option Nat

/-- Modelled from the spec: `cumulusci.cli.cci._signal_handler` (only its
tests are among the sources).  If the re-entrancy guard is set, return
immediately with no effects.  Otherwise: print the received-signal
notices, restore default handling for the signal, attempt to terminate
the process group when the platform supports it (emitting a warning with
the error text if that attempt fails, or an unsupported-platform notice
when it does not), run the exit stack in reverse-registration order, and
exit with code `128 + signum`. -/
def signal_handler (env : HandlerEnv) (signum : Nat) : HandlerResult :=
  if env.active then
    { output := [], killpgCalls := 0, defaultRestored := false,
      cleanupRan := [], exitCode := none }
  else
    { output :=
        ("Received " ++ signalName signum ++
          " - CumulusCI is being terminated") ::
        "Exiting with failure code due to external cancellation." ::
        "Terminating child processes..." ::
        (if env.pgSupported then
          match env.killpgOutcome with
          | Except.ok _ => []
          | Except.error msg =>
              ["Warning: Error terminating child processes: " ++ msg]
        else
          ["Process group termination not supported on this platform"]),
      killpgCalls := if env.pgSupported then 1 else 0,
      defaultRestored := true,
      cleanupRan := env.exitStack.reverse,
      exitCode := some (128 + signum) }

/-! ## CLI startup -/

/-- What startup produced: whether process-group creation was attempted,
whether it succeeded, what was logged, and which signals were bound to
the handler. -/
structure StartupResult where
  setpgrpAttempted : Bool
  groupCreated : Bool
  logged : List String
  signalsBound : List Nat

/-- Modelled from the spec: the startup sequence of `cumulusci.cli.cci.main`
(only its tests are among the sources).  Startup attempts to place the
process in its own process group; a failure of that attempt is swallowed
silently (nothing logged, no error propagated) and startup continues,
binding the handler to both recognized signals. -/
def main_startup (setpgrpOutcome : Except String Unit) :
    Except String StartupResult :=
  Except.ok
    { setpgrpAttempted := true,
      groupCreated := match setpgrpOutcome with
        | Except.ok _ => true
        | Except.error _ => false,
      logged := [],
      signalsBound := [2, 15] }

/-! ## Plugin loader (`cumulusci/plugins/plugin_loader.py`) -/

/-- A discovered plugin entry point: its name and the outcome of
constructing and initializing the plugin (`plugin_class()` followed by
`plugin.initialize()`), which may raise. -/
structure PluginEntry (α : Type) where
  name : String
  outcome : Except String α

/-- The warning `load_plugins` logs for a plugin that failed to
initialize. -/
def pluginWarning (n m : String) : String :=
  "Failed to initialize plugin " ++ n ++ ": " ++ m

/-- Embeds `load_plugins`: for each discovered plugin, construct and
initialize it; on success append it to the result list, on failure log a
warning and continue.  Returns (plugins, logged warnings). -/
def load_plugins {α : Type} : List (PluginEntry α) → List α × List String
  | [] => ([], [])
  | e :: rest =>
      let r := load_plugins rest
      match e.outcome with
      | Except.ok p => (p :: r.1, r.2)
      | Except.error m => (r.1, pluginWarning e.name m :: r.2)

/-! ## Final release predicate (`cumulusci/cli/utils.py`) -/

/-- A character matched by the regex class `[\d\.]`. -/
def finalChar (c : Char) : Bool := c.isDigit || c == '.'

/-- Embeds `is_final_release`, i.e.
`bool(re.compile(r"^[\d\.]+$").match(version))`.  Python's `$` matches at
the end of the string or just before a newline at the end of the string,
so the regex accepts a nonempty run of digits/periods optionally followed
by one trailing newline. -/
def is_final_release (s : List Char) : Bool :=
  let body := if s.getLast? == some '\n' then s.dropLast else s
  !body.isEmpty && body.all finalChar

/-- The documented/claimed behavior of `is_final_release`: the string is
nonempty and every character is a decimal digit or a period. -/
def finalReleaseSpec (s : List Char) : Bool :=
  !s.isEmpty && s.all finalChar

/-! ## Theorems: signal handler -/

/-- Claim C1: for every recognized termination signal (interrupt = 2,
terminate = 15), a handler invocation that runs to completion (the guard
was not set) exits the process with code exactly `128 + signal`: 130 for
the interrupt signal and 143 for the terminate signal. -/
theorem signal_handler_exit_codes (env : HandlerEnv) (s : Nat)
    (hact : env.active = false) (hs : s = 2 ∨ s = 15) :
    (signal_handler env s).exitCode = some (128 + s) ∧
    (signal_handler env 2).exitCode = some 130 ∧
    (signal_handler env 15).exitCode = some 143 := by
  refine ⟨?_, ?_, ?_⟩ <;> simp [signal_handler, hact]

theorem signal_handler_exit_codes_witness :
    (HandlerEnv.active ⟨false, [0], true, Except.ok ()⟩ = false ∧
      ((2 : Nat) = 2 ∨ (2 : Nat) = 15)) ∧
    ((signal_handler ⟨false, [0], true, Except.ok ()⟩ 2).exitCode =
        some (128 + 2) ∧
      (signal_handler ⟨false, [0], true, Except.ok ()⟩ 2).exitCode =
        some 130 ∧
      (signal_handler ⟨false, [0], true, Except.ok ()⟩ 15).exitCode =
        some 143) :=
  ⟨⟨rfl, Or.inl rfl⟩,
    signal_handler_exit_codes ⟨false, [0], true, Except.ok ()⟩ 2 rfl
      (Or.inl rfl)⟩

/-- Claim C2: whenever the re-entrancy guard is already set, a further
invocation of the signal handler is a no-op: no output, no
group-termination call, no restoring of default handling, no cleanup
actions run, and no process exit. -/
theorem signal_handler_reentrant_noop (env : HandlerEnv) (s : Nat)
    (hact : env.active = true) :
    signal_handler env s =
      { output := [], killpgCalls := 0, defaultRestored := false,
        cleanupRan := [], exitCode := none } := by
  simp [signal_handler, hact]

theorem signal_handler_reentrant_noop_witness :
    HandlerEnv.active ⟨true, [0], true, Except.ok ()⟩ = true ∧
    signal_handler ⟨true, [0], true, Except.ok ()⟩ 15 =
      { output := [], killpgCalls := 0, defaultRestored := false,
        cleanupRan := [], exitCode := none } :=
  ⟨rfl, signal_handler_reentrant_noop ⟨true, [0], true, Except.ok ()⟩ 15 rfl⟩

/-- Claim C4: if the group-termination attempt fails, the handler emits a
warning containing the underlying error text, still runs every registered
cleanup action exactly once (the stack in reverse order), and still exits
with code `128 + signal`. -/
theorem signal_handler_killpg_error (env : HandlerEnv) (s : Nat)
    (msg : String) (hact : env.active = false)
    (hsup : env.pgSupported = true)
    (hfail : env.killpgOutcome = Except.error msg) (hs : s = 2 ∨ s = 15) :
    ("Warning: Error terminating child processes: " ++ msg) ∈
      (signal_handler env s).output ∧
    (signal_handler env s).cleanupRan = env.exitStack.reverse ∧
    (∀ a : Nat, (signal_handler env s).cleanupRan.count a =
      env.exitStack.count a) ∧
    (signal_handler env s).exitCode = some (128 + s) := by
  refine ⟨?_, ?_, ?_, ?_⟩ <;>
    simp [signal_handler, hact, hsup, hfail, List.count_reverse]

theorem signal_handler_killpg_error_witness :
    (HandlerEnv.active ⟨false, [7, 8], true, Except.error "boom"⟩ = false ∧
      HandlerEnv.pgSupported ⟨false, [7, 8], true, Except.error "boom"⟩ =
        true ∧
      HandlerEnv.killpgOutcome ⟨false, [7, 8], true, Except.error "boom"⟩ =
        Except.error "boom" ∧
      ((15 : Nat) = 2 ∨ (15 : Nat) = 15)) ∧
    (("Warning: Error terminating child processes: " ++ "boom") ∈
      (signal_handler ⟨false, [7, 8], true, Except.error "boom"⟩ 15).output ∧
    (signal_handler ⟨false, [7, 8], true, Except.error "boom"⟩ 15).cleanupRan =
      [7, 8].reverse ∧
    (∀ a : Nat,
      (signal_handler ⟨false, [7, 8], true,
        Except.error "boom"⟩ 15).cleanupRan.count a = [7, 8].count a) ∧
    (signal_handler ⟨false, [7, 8], true, Except.error "boom"⟩ 15).exitCode =
      some (128 + 15)) :=
  ⟨⟨rfl, rfl, rfl, Or.inr rfl⟩,
    signal_handler_killpg_error ⟨false, [7, 8], true, Except.error "boom"⟩ 15
      "boom" rfl rfl rfl (Or.inr rfl)⟩

/-- Claim C6: if the platform capability probe reports no process-group
support, the handler makes no group-termination call, emits the
unsupported-platform notice, still runs every registered cleanup action
exactly once, and still exits with code `128 + signal`. -/
theorem signal_handler_no_pg_support (env : HandlerEnv) (s : Nat)
    (hact : env.active = false) (hsup : env.pgSupported = false)
    (hs : s = 2 ∨ s = 15) :
    (signal_handler env s).killpgCalls = 0 ∧
    "Process group termination not supported on this platform" ∈
      (signal_handler env s).output ∧
    (signal_handler env s).cleanupRan = env.exitStack.reverse ∧
    (∀ a : Nat, (signal_handler env s).cleanupRan.count a =
      env.exitStack.count a) ∧
    (signal_handler env s).exitCode = some (128 + s) := by
  refine ⟨?_, ?_, ?_, ?_, ?_⟩ <;>
    simp [signal_handler, hact, hsup, List.count_reverse]

theorem signal_handler_no_pg_support_witness :
    (HandlerEnv.active ⟨false, [4], false, Except.ok ()⟩ = false ∧
      HandlerEnv.pgSupported ⟨false, [4], false, Except.ok ()⟩ = false ∧
      ((15 : Nat) = 2 ∨ (15 : Nat) = 15)) ∧
    ((signal_handler ⟨false, [4], false, Except.ok ()⟩ 15).killpgCalls = 0 ∧
    "Process group termination not supported on this platform" ∈
      (signal_handler ⟨false, [4], false, Except.ok ()⟩ 15).output ∧
    (signal_handler ⟨false, [4], false, Except.ok ()⟩ 15).cleanupRan =
      [4].reverse ∧
    (∀ a : Nat,
      (signal_handler ⟨false, [4], false, Except.ok ()⟩ 15).cleanupRan.count
        a = [4].count a) ∧
    (signal_handler ⟨false, [4], false, Except.ok ()⟩ 15).exitCode =
      some (128 + 15)) :=
  ⟨⟨rfl, rfl, Or.inr rfl⟩,
    signal_handler_no_pg_support ⟨false, [4], false, Except.ok ()⟩ 15 rfl rfl
      (Or.inr rfl)⟩

/-! ## Theorems: startup -/

/-- Claim C8: a failure of the startup attempt to place the process in
its own process group is swallowed silently: no error propagates, nothing
is logged, and startup continues normally (both recognized signals are
still bound to the handler). -/
theorem main_startup_swallows_setpgrp_error (e : String) :
    main_startup (Except.error e) =
      Except.ok
        { setpgrpAttempted := true, groupCreated := false, logged := [],
          signalsBound := [2, 15] } := rfl

/-! ## Theorems: plugin loader -/

/-- Claim C9: `load_plugins` returns exactly the plugins whose
construction-and-initialization succeeded, in order, and logs exactly one
warning, naming the plugin, for each one that failed; a failure never
propagates and never prevents the remaining plugins from loading. -/
theorem load_plugins_isolates_failures {α : Type}
    (entries : List (PluginEntry α)) :
    (load_plugins entries).1 =
      entries.filterMap (fun e => e.outcome.toOption) ∧
    (load_plugins entries).2 =
      entries.filterMap (fun e =>
        match e.outcome with
        | Except.ok _ => none
        | Except.error m => some (pluginWarning e.name m)) := by
  induction entries with
  | nil => exact ⟨rfl, rfl⟩
  | cons e rest ih =>
      cases h : e.outcome with
      | ok p => simp [load_plugins, h, Except.toOption, ih.1, ih.2]
      | error m => simp [load_plugins, h, Except.toOption, ih.1, ih.2]

/-! ## Theorems: final release predicate -/

/-- Claim C10: `is_final_release` was claimed to return `true` iff the
version string is nonempty and every character is a digit or a period.
The code disagrees with that description (and with its own docstring) on
a version string with a trailing newline: Python's `$` matches just
before a trailing newline, so `is_final_release "1.0\n"` is `true` even
though `"\n"` is neither a digit nor a period. -/
theorem is_final_release_trailing_newline :
    is_final_release ['1', '.', '0', '\n'] = true ∧
    finalReleaseSpec ['1', '.', '0', '\n'] = false := by
  exact ⟨rfl, rfl⟩

/-! ## Theorems: configuration deep-merge -/

theorem lookupV_mergeEntries (k : String) (r l : List (String × Value)) :
    lookupV k (mergeEntries r l) =
      Option.map (fun vr => mergeValue vr (lookupV k l)) (lookupV k r) := by
  induction r with
  | nil => simp [mergeEntries, lookupV]
  | cons e rest ih =>
      obtain ⟨k2, vr⟩ := e
      by_cases h : k2 = k
      · subst h
        cases hl : lookupV k2 l <;>
          simp [mergeEntries, lookupV, mergeValue, hl]
      · simp [mergeEntries, lookupV, h, ih]

theorem lookupV_localOnly (k : String) (r l : List (String × Value)) :
    lookupV k (localOnly r l) =
      if (lookupV k r).isNone then lookupV k l else none := by
  induction l with
  | nil => cases h : lookupV k r <;> simp [localOnly, lookupV, h]
  | cons e rest ih =>
      obtain ⟨k2, v⟩ := e
      simp only [localOnly] at ih ⊢
      by_cases hk : k2 = k
      · subst hk
        cases h : lookupV k2 r <;>
          simp [List.filter_cons, lookupV, h, ih]
      · cases hp : (lookupV k2 r).isNone <;>
          simp [List.filter_cons, lookupV, hk, hp, ih]

theorem lookupV_append (k : String) (a b : List (String × Value)) :
    lookupV k (a ++ b) =
      match lookupV k a with
      | some v => some v
      | none => lookupV k b := by
  induction a with
  | nil => simp [lookupV]
  | cons e rest ih =>
      obtain ⟨k2, v⟩ := e
      by_cases h : k2 = k <;> simp [lookupV, h, ih]

/-- Claim C3: merging two mappings is the recursively defined merge: for
each key of `remote` the result takes `remote`'s value, except that when
the key also exists in `local` and both values are mappings the result
takes their recursive merge; a key present only in `local` keeps
`local`'s value; a key present in both where at least one value is not a
mapping takes `remote`'s value outright. -/
theorem deep_merge_plugins_characterization (r l : List (String × Value))
    (k : String) :
    lookupV k (deep_merge_plugins (Value.dict r) (Value.dict l)).entries =
      match lookupV k r, lookupV k l with
      | some vr, some vl =>
          some (if vr.isDict && vl.isDict then deep_merge_plugins vr vl
            else vr)
      | some vr, none => some vr
      | none, some vl => some vl
      | none, none => none := by
  have hm := lookupV_mergeEntries k r l
  have hl := lookupV_localOnly k r l
  have ha := lookupV_append k (mergeEntries r l) (localOnly r l)
  have he : (deep_merge_plugins (Value.dict r) (Value.dict l)).entries =
      mergeEntries r l ++ localOnly r l := by
    simp [deep_merge_plugins, Value.entries]
  rw [he, ha, hm, hl]
  cases h1 : lookupV k r <;> cases h2 : lookupV k l <;>
    simp [mergeValue]

/-- Claim C7: if at least one of the two inputs is not a mapping, the
merge returns `remote` unchanged and `local` is ignored entirely. -/
theorem deep_merge_plugins_non_mapping (r l : Value)
    (h : r.isDict = false ∨ l.isDict = false) :
    deep_merge_plugins r l = r := by
  cases r <;> cases l <;> simp_all [deep_merge_plugins, Value.isDict]

theorem deep_merge_plugins_non_mapping_witness :
    (Value.isDict (Value.scalar "not_a_dict") = false ∨
      Value.isDict (Value.dict [("a", Value.scalar "1")]) = false) ∧
    deep_merge_plugins (Value.scalar "not_a_dict")
      (Value.dict [("a", Value.scalar "1")]) = Value.scalar "not_a_dict" :=
  ⟨Or.inl rfl,
    deep_merge_plugins_non_mapping (Value.scalar "not_a_dict")
      (Value.dict [("a", Value.scalar "1")]) (Or.inl rfl)⟩

/-! ## Theorems: deep-copy freshness of merge results -/

mutual

theorem flattenV_fresh (v : Value) (n : Nat) :
    n ≤ (flattenV v n).next ∧ ∀ c ∈ (flattenV v n).cells, n ≤ c.1 := by
  cases v with
  | scalar s => simp [flattenV]
  | dict es =>
      have h := flattenEntries_fresh es n
      refine ⟨?_, ?_⟩
      · simp only [flattenV]
        omega
      · intro c hc
        simp only [flattenV, List.mem_append, List.mem_singleton] at hc
        rcases hc with hc | hc
        · exact h.2 c hc
        · subst hc
          simpa using h.1
termination_by sizeOf v
decreasing_by all_goals (simp_wf <;> omega)

theorem flattenEntries_fresh (es : List (String × Value)) (n : Nat) :
    n ≤ (flattenEntries es n).next ∧
    ∀ c ∈ (flattenEntries es n).cells, n ≤ c.1 := by
  cases es with
  | nil => simp [flattenEntries]
  | cons e rest =>
      obtain ⟨k, v⟩ := e
      have h1 := flattenV_fresh v n
      have h2 := flattenEntries_fresh rest (flattenV v n).next
      refine ⟨?_, ?_⟩
      · simp only [flattenEntries]
        omega
      · intro c hc
        simp only [flattenEntries, List.mem_append] at hc
        rcases hc with hc | hc
        · exact h1.2 c hc
        · exact le_trans h1.1 (h2.2 c hc)
termination_by sizeOf es
decreasing_by all_goals (simp_wf <;> omega)

end

/-- Claim C5: the merge result shares no mutable structure with either
input.  Inputs live at heap addresses below the allocation counter `n`;
the result of the merge is deep-copied into cells at fresh addresses (at
or above `n`), so mutating any cell of the result leaves the cell at any
input address unchanged. -/
theorem deep_merge_plugins_no_shared_structure (r l : Value) (n a b : Nat)
    (h : Heap) (x : Node) (hb : b < n)
    (ha : a ∈ (flattenV (deep_merge_plugins r l) n).cells.map Prod.fst) :
    heapUpdate h a x b = h b := by
  rcases List.mem_map.mp ha with ⟨c, hc, rfl⟩
  have hge := (flattenV_fresh (deep_merge_plugins r l) n).2 c hc
  have hne : b ≠ c.1 := by omega
  simp [heapUpdate, hne]

theorem deep_merge_plugins_no_shared_structure_witness :
    ((0 : Nat) < 3 ∧
      3 ∈ (flattenV (deep_merge_plugins (Value.scalar "x")
        (Value.dict [])) 3).cells.map Prod.fst) ∧
    heapUpdate (fun _ => none) 3 (Node.scalar "z") 0 =
      (fun _ => (none : Option Node)) 0 :=
  ⟨⟨by decide, by simp [deep_merge_plugins, flattenV]⟩,
    deep_merge_plugins_no_shared_structure (Value.scalar "x")
      (Value.dict []) 3 3 0 (fun _ => none) (Node.scalar "z") (by decide)
      (by simp [deep_merge_plugins, flattenV])⟩
